import Mathlib

/-!
Verification of the `tensorify` decorator utility.

The development shallowly embeds `tensorify/tensorify.py`:
strings become `List Char`, Python's `str.split` / `str.capitalize`
become the executable functions `pySplit` / `pyCapitalize`, the
decorator configuration becomes an explicit record, and the external
framework's `py_func` node constructor becomes a `Node` record whose
evaluation applies the registered callback to the node inputs.
Fallible operations return `Except PyErr`.
-/

namespace Tensorify

/-- Python runtime errors that the embedded code can raise. -/
inductive PyErr where
  | indexError
  | nameError (missing : String)
  | typeError (msg : String)
deriving DecidableEq, Repr

/-- Python's `s.split(sep)` for a one-character separator `sep`:
splits at every occurrence of `sep`; `"".split(sep) == [""]`, and
consecutive separators produce empty segments. -/
def pySplit (sep : Char) : List Char → List (List Char)
  | [] => [[]]
  | c :: cs =>
    if c = sep then [] :: pySplit sep cs
    else
      match pySplit sep cs with
      | t :: ts => (c :: t) :: ts
      | [] => [[c]]

/-- Python's `w.capitalize()`: first character uppercased, every
remaining character lowercased; the empty string maps to itself. -/
def pyCapitalize : List Char → List Char
  | [] => []
  | c :: cs => c.toUpper :: cs.map Char.toLower

/-- `camel_case` from `tensorify.py`:
`''.join(word.capitalize() for word in name.split('_'))`. -/
def camel_case (name : List Char) : List Char :=
  ((pySplit '_' name).map pyCapitalize).flatten

/-- Spec-side assembly of underscore-separated words: the words joined
with a single separator character between consecutive words. -/
def joinSep (sep : Char) : List (List Char) → List Char
  | [] => []
  | [w] => w
  | w :: ws => w ++ sep :: joinSep sep ws

/-- Spec-side capitalization of a word: first letter uppercased, the
rest left unchanged (for lowercase words this is "the word
capitalized"). -/
def specCapitalize : List Char → List Char
  | [] => []
  | c :: cs => c.toUpper :: cs

/-- The lowercase ASCII letters, the alphabet of "lowercase words". -/
def lowerChars : List Char := "abcdefghijklmnopqrstuvwxyz".data

theorem pySplit_ne_nil (sep : Char) (s : List Char) : pySplit sep s ≠ [] := by
  cases s with
  | nil => simp [pySplit]
  | cons c cs =>
    simp only [pySplit]
    split
    · simp
    · cases h : pySplit sep cs <;> simp

theorem pySplit_append_no_sep (sep : Char) (w s : List Char)
    (hw : ∀ c ∈ w, c ≠ sep) :
    pySplit sep (w ++ s) = (w ++ (pySplit sep s).headI) :: (pySplit sep s).tail := by
  induction w with
  | nil =>
    obtain ⟨t, ts, ht⟩ := List.exists_cons_of_ne_nil (pySplit_ne_nil sep s)
    simp [ht]
  | cons c w ih =>
    have hc : c ≠ sep := hw c (by simp)
    have ih' := ih (fun c hc => hw c (by simp [hc]))
    simp only [List.cons_append, pySplit, if_neg hc, List.append_eq, ih']

theorem pySplit_joinSep (sep : Char) (ws : List (List Char))
    (hne : ws ≠ []) (hw : ∀ w ∈ ws, ∀ c ∈ w, c ≠ sep) :
    pySplit sep (joinSep sep ws) = ws := by
  induction ws with
  | nil => exact absurd rfl hne
  | cons w ws ih =>
    cases ws with
    | nil =>
      have h := pySplit_append_no_sep sep w [] (hw w (by simp))
      simpa [joinSep, pySplit] using h
    | cons w' ws' =>
      have hrest : pySplit sep (joinSep sep (w' :: ws')) = w' :: ws' :=
        ih (by simp) (fun u hu => hw u (by simp [hu]))
      have h := pySplit_append_no_sep sep w (sep :: joinSep sep (w' :: ws'))
        (hw w (by simp))
      simp only [joinSep, h, pySplit, if_pos rfl, hrest, List.headI, List.tail]
      simp

theorem toLower_of_mem_lowerChars : ∀ c ∈ lowerChars, c.toLower = c := by decide

theorem ne_sep_of_mem_lowerChars : ∀ c ∈ lowerChars, c ≠ '_' := by decide

theorem pyCapitalize_of_lower (w : List Char) (hw : ∀ c ∈ w, c ∈ lowerChars) :
    pyCapitalize w = specCapitalize w := by
  cases w with
  | nil => rfl
  | cons c cs =>
    simp only [pyCapitalize, specCapitalize, List.cons.injEq, true_and]
    have h1 : List.map Char.toLower cs = List.map id cs :=
      List.map_congr_left fun x hx =>
        toLower_of_mem_lowerChars x (hw x (List.mem_cons_of_mem c hx))
    simpa using h1

/-- Output-type descriptors (`tf.int32`, `tf.int64`, ...): abstract
tokens, since this code only forwards them to the framework. -/
inductive TType where
  | int32
  | int64
  | float32
deriving DecidableEq, Repr

/-- A Python function as the decorator sees it: its `__name__`
identifier and its call behaviour on a positional-argument list and a
keyword-argument record (the `V` are runtime values, the `K` is the
whole keyword-argument set, which the wrapper only ever passes through
as one block via `functools.partial`). -/
structure PyFn (V K : Type) where
  pyName : List Char
  call : List V → K → V

/-- Modelled from the spec: the graph node built by the external
framework's `tf.py_func` (the node constructor is not part of this
repository). It records exactly what `tf_wrapper` passes in: the
callback (the partial application), the tensor inputs, the output-type
list, the statefulness flag and the node name. -/
structure Node (V : Type) where
  callback : List V → V
  inputs : List V
  outputs : List TType
  stateful : Bool
  name : List Char

/-- Modelled from the spec: the framework's execution of a `py_func`
node invokes the registered callback on the node's concrete input
values and returns its result. -/
def evalNode {V : Type} (n : Node V) : V :=
  n.callback n.inputs

/-- The configuration held by a decorated callable. In the source,
`tensorflow_op` resolves the tri-state `stateful` argument
(`if stateful is None: stateful = is_method`) before `tf_decorator`
closes over it, so the stored flag is already a plain boolean. -/
structure ResolvedConfig where
  outputs : List TType
  stateful : Bool
  name : Option (List Char)
  is_method : Bool
deriving DecidableEq, Repr

/-- A decorated callable (`tf_wrapper` plus the attributes assigned on
it): the resolved configuration, the wrapped function, and the names
of the attributes exposed on the callable object. -/
structure Decorated (V K : Type) where
  rc : ResolvedConfig
  fn : PyFn V K
  attrs : List String

/-- `tensorflow_op(outputs, stateful, name, is_method)` applied to a
function: resolves statefulness, wraps the function, and exposes the
three mutator attributes (`tf_wrapper.with_name = set_name`, etc.). -/
def tensorflow_op {V K : Type} (outputs : List TType) (stateful : Option Bool)
    (name : Option (List Char)) (is_method : Bool) (f : PyFn V K) :
    Decorated V K :=
  { rc := { outputs := outputs
            stateful := stateful.getD is_method
            name := name
            is_method := is_method }
    fn := f
    attrs := ["with_name", "stateful", "with_outputs"] }

/-- The body of `tf_wrapper(*args, **kwargs)`: resolve the node name
(explicit name, else `camel_case(function.__name__)`), for methods
strip the receiver `self = args[0]` (an `IndexError` when there is no
positional argument) and close over it in the partial application,
then hand callback, remaining args, outputs, statefulness and name to
the framework's node constructor. -/
def tf_wrapper {V K : Type} (rc : ResolvedConfig) (f : PyFn V K)
    (args : List V) (kwargs : K) : Except PyErr (Node V) :=
  let name_to_use := rc.name.getD (camel_case f.pyName)
  if rc.is_method then
    match args with
    | [] => .error .indexError
    | self :: rest =>
      .ok { callback := fun pos => f.call (self :: pos) kwargs
            inputs := rest
            outputs := rc.outputs
            stateful := rc.stateful
            name := name_to_use }
  else
    .ok { callback := fun pos => f.call pos kwargs
          inputs := args
          outputs := rc.outputs
          stateful := rc.stateful
          name := name_to_use }

/-- Calling a decorated callable runs `tf_wrapper` with its resolved
configuration and wrapped function. -/
def callDecorated {V K : Type} (d : Decorated V K) (args : List V)
    (kwargs : K) : Except PyErr (Node V) :=
  tf_wrapper d.rc d.fn args kwargs

/-- `set_name` (exposed as `with_name`): re-decorates the wrapped
function with the same outputs, the already-resolved statefulness and
method flag, and the new name. -/
def set_name {V K : Type} (d : Decorated V K) (new_name : List Char) :
    Decorated V K :=
  tensorflow_op d.rc.outputs (some d.rc.stateful) (some new_name)
    d.rc.is_method d.fn

/-- `set_stateful` (exposed as `stateful`): its body passes
`stateful=new_stateful`, but no binding named `new_stateful` exists in
any enclosing scope (the parameter is `new_statefulness`), so under
Python name resolution every invocation raises
`NameError: name 'new_stateful' is not defined` before any
re-decoration happens. -/
def set_stateful {V K : Type} (_d : Decorated V K)
    (_new_statefulness : Bool) : Except PyErr (Decorated V K) :=
  .error (.nameError "new_stateful")

/-- `set_outputs` (exposed as `with_outputs`): re-decorates the
wrapped function with the new output list and all other fields
unchanged. -/
def set_outputs {V K : Type} (d : Decorated V K) (new_outputs : List TType) :
    Decorated V K :=
  tensorflow_op new_outputs (some d.rc.stateful) d.rc.name
    d.rc.is_method d.fn

/-- A mutator application that returns a decorated callable
(`set_stateful` always raises, so chains continue only through
`with_name` and `with_outputs`). -/
inductive Mut where
  | withName (s : List Char)
  | withOutputs (ts : List TType)

/-- Apply one mutator to a decorated callable. -/
def applyMut {V K : Type} (d : Decorated V K) : Mut → Decorated V K
  | .withName s => set_name d s
  | .withOutputs ts => set_outputs d ts

/-- Apply a chain of mutators left to right. -/
def applyMuts {V K : Type} (d : Decorated V K) : List Mut → Decorated V K
  | [] => d
  | m :: ms => applyMuts (applyMut d m) ms

/-- A binding in a module's namespace: a plain function (recognised by
`inspect.isfunction`), an op-decorated callable, or anything else. -/
inductive Binding (V K : Type) where
  | plainFn (f : PyFn V K)
  | opFn (d : Decorated V K)
  | other

/-- A Python module as `tensorify` uses it: its `__dict__` binding
table. -/
structure PyModule (V K : Type) where
  dict : List (String × Binding V K)

/-- `copy.copy` applied to a module object. CPython's `copy` module
has no dispatch entry for module objects and no `__copy__` hook on
them, so it falls back to the pickle reduce protocol, which rejects
modules: `copy.copy(module)` raises
`TypeError: cannot pickle 'module' object` for every module. -/
def copyModule {V K : Type} (_m : PyModule V K) :
    Except PyErr (PyModule V K) :=
  .error (.typeError "cannot pickle module object")

/-- The conversion loop of `tensorify`: every binding recognised as a
plain function is replaced by `tensorflow_op(outputs=default_outputs)`
applied to it; all other bindings are left alone. -/
def tensorifyDict {V K : Type} (default_outputs : List TType) :
    List (String × Binding V K) → List (String × Binding V K) :=
  List.map fun nb =>
    match nb with
    | (n, .plainFn f) =>
      (n, .opFn (tensorflow_op default_outputs none none false f))
    | other => other

/-- `tensorify(module, default_outputs, in_place)`: with `in_place`
the module's own bindings are rewritten; otherwise the code first
calls `copy.copy(module)`, which raises, so the conversion loop is
never reached. -/
def tensorify {V K : Type} (module : PyModule V K)
    (default_outputs : List TType) (in_place : Bool) :
    Except PyErr (PyModule V K) := do
  let new_module ← if in_place then pure module else copyModule module
  pure { dict := tensorifyDict default_outputs new_module.dict }

/-- A concrete sample function mirroring the repository's test helper
`add(x, y, extra_one=False)`: it sums its positional arguments and
adds one when the keyword flag is set. -/
def demoAdd : PyFn Int Bool :=
  { pyName := ("add".data)
    call := fun p extra_one => p.sum + (if extra_one then 1 else 0) }

/-- C4: invoking the statefulness mutator on any decorated function
with any argument raises the undefined-name error for `new_stateful`
instead of returning a reconfigured callable. -/
theorem stateful_mutator_raises_nameError {V K : Type}
    (d : Decorated V K) (b : Bool) :
    set_stateful d b = .error (.nameError ("new_stateful")) := rfl

/-- C1: the chain `decorate(add).with_name("X").stateful(True)` does
not produce a callable configured with name "X" and statefulness true;
its last step raises `NameError: name 'new_stateful' is not defined`. -/
theorem with_name_then_stateful_raises :
    set_stateful (set_name (tensorflow_op [] none none false demoAdd)
        ("X".data)) true
      = .error (.nameError ("new_stateful")) := rfl

/-- C2: for every nonempty list of lowercase words, `camel_case` of
their underscore-separated concatenation is the concatenation of the
words with their first letters uppercased and the underscores removed
(empty words between consecutive underscores contribute nothing); in
particular "add" maps to "Add", "replicate_value" to
"ReplicateValue", the empty string to itself, and "a__b" to "AB". -/
theorem camel_case_lowercase_words :
    (∀ ws : List (List Char), ws ≠ [] →
      (∀ w ∈ ws, ∀ c ∈ w, c ∈ lowerChars) →
      camel_case (joinSep '_' ws) = (ws.map specCapitalize).flatten)
    ∧ camel_case ("add".data) = ("Add".data)
    ∧ camel_case ("replicate_value".data) = ("ReplicateValue".data)
    ∧ camel_case [] = []
    ∧ camel_case ("a__b".data) = ("AB".data) := by
  refine ⟨?_, by decide, by decide, by decide, by decide⟩
  intro ws hne hlow
  have hsep : ∀ w ∈ ws, ∀ c ∈ w, c ≠ '_' := fun w hw c hc =>
    ne_sep_of_mem_lowerChars c (hlow w hw c hc)
  unfold camel_case
  rw [pySplit_joinSep '_' ws hne hsep]
  congr 1
  exact List.map_congr_left fun w hw => pyCapitalize_of_lower w (hlow w hw)

/-- Witness for C2 at the concrete word list ["ab", "cd"]. -/
theorem camel_case_lowercase_words_witness :
    ([("ab".data), ("cd".data)] : List (List Char)) ≠ [] ∧
    (∀ w ∈ ([("ab".data), ("cd".data)] : List (List Char)),
      ∀ c ∈ w, c ∈ lowerChars) ∧
    camel_case (joinSep '_' [("ab".data), ("cd".data)])
      = (([("ab".data), ("cd".data)] : List (List Char)).map
          specCapitalize).flatten :=
  ⟨by decide, by decide,
    camel_case_lowercase_words.1 [("ab".data), ("cd".data)]
      (by decide) (by decide)⟩

/-- C3: evaluated at the lowerCamelCase identifier "fooBar",
`camel_case` returns "Foobar" — the internal capital is lowercased by
`str.capitalize`, so lowerCamelCase word boundaries are not
preserved. -/
theorem camel_case_lowers_internal_capitals :
    camel_case ("fooBar".data) = ("Foobar".data) := by decide

/-- C5: the statefulness flag handed to the framework's node
constructor is the resolved value `stateful.getD is_method`: the
explicit boolean when one was supplied, and the `is_method` flag when
`stateful` was left unset (`Option.getD` covers exactly these two
cases). -/
theorem stateful_resolution {V K : Type} (outputs : List TType)
    (stateful : Option Bool) (name : Option (List Char)) (is_method : Bool)
    (f : PyFn V K) (args : List V) (kwargs : K) :
    (tensorflow_op outputs stateful name is_method f).rc.stateful
        = stateful.getD is_method
    ∧ (callDecorated (tensorflow_op outputs stateful name is_method f)
          args kwargs).map Node.stateful
        = (callDecorated (tensorflow_op outputs stateful name is_method f)
            args kwargs).map (fun _ => stateful.getD is_method) := by
  constructor
  · rfl
  · unfold callDecorated tf_wrapper tensorflow_op
    cases is_method <;> cases args <;> simp [Except.map]

/-- C6: a node built by a decorated call is named by the explicit name
when one was configured, and by `camel_case` of the wrapped function's
identifier otherwise; concretely, an undecorated name "add" yields
node name "Add" and "replicate_value" yields "ReplicateValue". -/
theorem node_name_resolution {V K : Type} (outputs : List TType)
    (stateful : Option Bool) (is_method : Bool) (f : PyFn V K)
    (args : List V) (kwargs : K) :
    ((callDecorated (tensorflow_op outputs stateful none is_method f)
          args kwargs).map Node.name
        = (callDecorated (tensorflow_op outputs stateful none is_method f)
            args kwargs).map (fun _ => camel_case f.pyName))
    ∧ (∀ nm : List Char,
        (callDecorated (tensorflow_op outputs stateful (some nm) is_method f)
            args kwargs).map Node.name
          = (callDecorated (tensorflow_op outputs stateful (some nm)
              is_method f) args kwargs).map (fun _ => nm))
    ∧ camel_case ("add".data) = ("Add".data)
    ∧ camel_case ("replicate_value".data) = ("ReplicateValue".data) := by
  refine ⟨?_, ?_, by decide, by decide⟩
  · unfold callDecorated tf_wrapper tensorflow_op
    cases is_method <;> cases args <;> simp [Except.map]
  · intro nm
    unfold callDecorated tf_wrapper tensorflow_op
    cases is_method <;> cases args <;> simp [Except.map]

/-- C7: calling a decorated method (`is_method = true`) with no
positional argument fails with an index error during receiver
extraction; the error is returned in place of a node, so the
framework's node constructor is never reached. -/
theorem method_no_receiver_indexError {V K : Type} (outputs : List TType)
    (stateful : Option Bool) (name : Option (List Char)) (f : PyFn V K)
    (kwargs : K) :
    callDecorated (tensorflow_op outputs stateful name true f) [] kwargs
      = .error .indexError := rfl

/-- C8: for every module and default output list, `tensorify` with
`in_place = false` raises the type error from `copy.copy` on the
module object and never returns a converted namespace. -/
theorem tensorify_not_in_place_raises {V K : Type} (m : PyModule V K)
    (default_outputs : List TType) :
    tensorify m default_outputs false
      = .error (.typeError ("cannot pickle module object")) := rfl

/-- C9: decorating a function (plain, `is_method = false`) and calling
the decorated function on positional arguments `p` and keyword set
`kw` yields a node whose evaluation — the framework invoking the
registered callback, the partial application binding `kw`, on the
concrete positional values — equals calling the function directly on
`p` and `kw`. -/
theorem decorated_call_value_transparent {V K : Type} (outputs : List TType)
    (stateful : Option Bool) (name : Option (List Char)) (f : PyFn V K)
    (p : List V) (kw : K) :
    (callDecorated (tensorflow_op outputs stateful name false f) p kw).map
        evalNode
      = .ok (f.call p kw) := rfl

theorem applyMuts_attrs {V K : Type} (ms : List Mut) (d : Decorated V K)
    (h : d.attrs = ["with_name", "stateful", "with_outputs"]) :
    (applyMuts d ms).attrs = ["with_name", "stateful", "with_outputs"] := by
  induction ms generalizing d with
  | nil => simpa [applyMuts] using h
  | cons m ms ih => cases m <;> exact ih _ rfl

/-- C10: every callable obtained from the decorator by any chain of
the callable-returning mutators (`with_name`, `with_outputs`), of any
depth including zero, again exposes the three mutator attributes
`with_name`, `stateful` and `with_outputs`. -/
theorem mutator_results_expose_mutators {V K : Type} (outputs : List TType)
    (stateful : Option Bool) (name : Option (List Char)) (is_method : Bool)
    (f : PyFn V K) (ms : List Mut) :
    (applyMuts (tensorflow_op outputs stateful name is_method f) ms).attrs
      = ["with_name", "stateful", "with_outputs"] :=
  applyMuts_attrs ms _ rfl

end Tensorify
